import Mathlib

/-!
Shallow embedding of the Coinbase trading agent core.

This file embeds the strategy-evaluation and alert-triggering loop of the
`CoinbaseTradingAgent` class (price alerts, the four strategy evaluators,
the trade submission path, and the monitoring cycle) and proves properties
of the embedded operations.

Modelling conventions:
* JavaScript numbers are modelled as `ℚ`.  The only operation whose
  JavaScript corner cases matter here is division, which never throws in
  JavaScript but can produce `Infinity`/`NaN`; `jsDiv` together with
  `jsLtQ`/`jsGtQ` embeds exactly the divisions and comparisons the source
  performs on a possibly-zero divisor (`NaN` compares false, infinities
  compare as expected).
* `Math.sqrt` is an external library routine; the evaluators take an
  arbitrary `sqrtFn : ℚ → ℚ` parameter, and `ratSqrt` is a concrete
  instance that agrees with `Math.sqrt` on perfect squares (all concrete
  inputs used below).
* JavaScript `Map`s iterate in insertion order and are modelled as lists;
  `Map.set` semantics (replace in place if the key exists, else append) is
  `mapSetBy`.
* Alert callbacks are opaque user code.  Their control effect is modelled
  by a `throws : String → Bool` oracle (whether the callback of a given
  alert throws when invoked); their invocations are reported in the scan
  output as `(alertId, price)` pairs; any state effects they have go
  through the public operations, which the trace-level theorems quantify
  over.
* `JavaScript` truthiness tests on numeric fields (`if (lastExecution)`,
  `if (lastPrice)`) are embedded by `jsTruthy` (`null`/`0` are falsy).
* Exceptions are modelled with `Except` / explicit error results; where
  the source mutates state before a possible throw, the error result
  carries the partially mutated state, exactly as the caught exception
  leaves it in the source.
-/

namespace TradingAgent

/-- `"above" | "below"` alert conditions. -/
inductive Condition where
  | above
  | below
deriving DecidableEq, Repr

/-- `"buy" | "sell"` order sides. -/
inductive Side where
  | buy
  | sell
deriving DecidableEq, Repr

/-- `"market" | "limit"` order types. -/
inductive OrderType where
  | market
  | limit
deriving DecidableEq, Repr

/-- The `TradeConfig` interface. -/
structure TradeConfig where
  productId : String
  orderType : OrderType
  side : Side
  amount : String
  limitPrice : Option String := none
deriving DecidableEq, Repr

/-- The `PriceAlert` interface; the optional callback is modelled by its
presence flag (its behaviour is supplied externally, see module docs). -/
structure PriceAlert where
  id : String
  productId : String
  targetPrice : ℚ
  condition : Condition
  active : Bool
  hasCallback : Bool
deriving DecidableEq, Repr

/-- The kind-specific `parameters` bag of a strategy, as a tagged union
(one variant per `type` string, fields exactly as created by the
`create*Strategy` helpers and mutated by the evaluators). -/
inductive StrategyParams where
  | dca (amountPerTrade : String) (intervalMinutes : ℚ) (lastExecution : Option ℚ)
  | grid (lowerPrice upperPrice : ℚ) (gridLevels : ℕ) (amountPerLevel : String)
      (activeLevels : List ℕ)
  | momentum (threshold : ℚ) (tradeAmount : String) (lastPrice : Option ℚ)
  | meanReversion (lookbackPeriod : ℕ) (stdDevThreshold : ℚ) (tradeAmount : String)
      (priceHistory : List ℚ)
deriving DecidableEq, Repr

/-- The `TradingStrategy` interface (the `type` discriminant is carried by
the `params` variant). -/
structure Strategy where
  id : String
  name : String
  enabled : Bool
  productId : String
  params : StrategyParams
deriving DecidableEq, Repr

/-- The `MarketData` interface (a per-instrument snapshot). -/
structure MarketSnapshot where
  productId : String
  price : ℚ
  volume24h : ℚ
  priceChange24h : ℚ
  timestamp : ℚ
deriving DecidableEq, Repr

/-- The trade record built by `executeTrade` (`tradeDetails`). -/
structure TradeRecord where
  id : String
  productId : String
  orderType : OrderType
  side : Side
  amount : String
  limitPrice : Option String
  status : String
  timestamp : String
  executedPrice : ℚ
deriving DecidableEq, Repr

/-- The events the agent emits: `"priceAlert"` with
`{alertId, productId, currentPrice, targetPrice}`, `"tradeExecuted"` with
the full trade record, and the grid evaluator's level-hit signal (a
`console.log` in the source, surfaced here as an observable). -/
inductive Event where
  | priceAlert (alertId productId : String) (currentPrice targetPrice : ℚ)
  | tradeExecuted (record : TradeRecord)
  | gridLevelHit (strategyId : String) (levelIndex : ℕ)
deriving DecidableEq, Repr

/-- The error taxonomy reachable from the embedded operations:
`"Agent not initialized"` and `"No market data available for …"`. -/
inductive TradeError where
  | notInitialized
  | noMarketData (productId : String)
deriving DecidableEq, Repr

/-- The mutable fields of the `CoinbaseTradingAgent` instance that the
embedded operations touch. -/
structure AgentState where
  account : Bool
  aiEnabled : Bool
  priceAlerts : List PriceAlert
  strategies : List Strategy
  marketData : List MarketSnapshot
  orderHistory : List TradeRecord
deriving DecidableEq, Repr

/-- JavaScript truthiness of an optional number (`null` and `0` are falsy). -/
def jsTruthy (o : Option ℚ) : Bool :=
  match o with
  | none => false
  | some q => q != 0

/-- A JavaScript number result that may be non-finite. -/
inductive JsNum where
  | num (q : ℚ)
  | posInf
  | negInf
  | nan
deriving DecidableEq, Repr

/-- JavaScript division: finite quotient for a non-zero divisor, signed
infinity or `NaN` for a zero divisor. -/
def jsDiv (a b : ℚ) : JsNum :=
  if b ≠ 0 then .num (a / b)
  else if 0 < a then .posInf
  else if a < 0 then .negInf
  else .nan

/-- JavaScript `x < q` for a possibly non-finite `x` (`NaN` compares false). -/
def jsLtQ : JsNum → ℚ → Bool
  | .num a, q => decide (a < q)
  | .posInf, _ => false
  | .negInf, _ => true
  | .nan, _ => false

/-- JavaScript `x > q` for a possibly non-finite `x` (`NaN` compares false). -/
def jsGtQ : JsNum → ℚ → Bool
  | .num a, q => decide (q < a)
  | .posInf, _ => true
  | .negInf, _ => false
  | .nan, _ => false

/-- A computable stand-in for `Math.sqrt`, exact on rationals whose
numerator and denominator are perfect squares (all inputs evaluated
concretely below); evaluator theorems take the square-root function as a
parameter with explicit hypotheses instead of relying on this instance. -/
def ratSqrt (q : ℚ) : ℚ :=
  (Nat.sqrt q.num.toNat : ℚ) / (Nat.sqrt q.den : ℚ)

/-- JavaScript `Map.set` keyed by `key`: replace in place when present,
append otherwise. -/
def mapSetBy {α : Type} (key : α → String) (l : List α) (x : α) : List α :=
  if l.any (fun y => key y == key x) then
    l.map (fun y => if key y == key x then x else y)
  else l ++ [x]

/-- `getMarketData`: the latest snapshot for an instrument, or `none`. -/
def getMarketData (s : AgentState) (productId : String) : Option MarketSnapshot :=
  s.marketData.find? (fun m => m.productId == productId)

/-- `getCurrentPrice`: the snapshot price, throwing when no data exists. -/
def getCurrentPrice (s : AgentState) (productId : String) : Except TradeError ℚ :=
  match getMarketData s productId with
  | none => .error (.noMarketData productId)
  | some data => .ok data.price

/-- The `tradeDetails` record `executeTrade` builds: the config spread
into the record together with the generated id, `"completed"` status,
timestamp and the executed price. -/
def mkTradeRecord (config : TradeConfig) (tradeId timestamp : String) (price : ℚ) :
    TradeRecord :=
  { id := tradeId
    productId := config.productId
    orderType := config.orderType
    side := config.side
    amount := config.amount
    limitPrice := config.limitPrice
    status := "completed"
    timestamp := timestamp
    executedPrice := price }

/-- `executeTrade`: requires an account, stamps the record with the
current store price for the config's instrument, appends it to the order
history, and emits a `tradeExecuted` event with the record.  The fresh
trade id and timestamp are inputs (the source derives them from the
clock). -/
def executeTrade (s : AgentState) (config : TradeConfig) (tradeId timestamp : String) :
    Except TradeError (TradeRecord × AgentState × List Event) :=
  if s.account = false then
    .error .notInitialized
  else
    match getCurrentPrice s config.productId with
    | .error e => .error e
    | .ok price =>
        let td := mkTradeRecord config tradeId timestamp price
        .ok (td, { s with orderHistory := s.orderHistory ++ [td] }, [.tradeExecuted td])

/-- The alert trigger test of `checkPriceAlerts` for one alert against one
snapshot price. -/
def alertTriggered (a : PriceAlert) (price : ℚ) : Bool :=
  (a.condition == .above && decide (a.targetPrice ≤ price)) ||
    (a.condition == .below && decide (price ≤ a.targetPrice))

/-- The body of the `checkPriceAlerts` loop over the alert list.  Output:
the updated alert list, the emitted events, the callback invocations
`(alertId, currentPrice)`, and whether the scan ran to completion
(`false` when a callback threw, which in the source propagates out of the
loop: the event has been emitted but `alert.active = false` has not yet
executed, and the remaining alerts are not examined). -/
def checkPriceAlertsGo (throws : String → Bool) (md : List MarketSnapshot) :
    List PriceAlert → List PriceAlert × List Event × List (String × ℚ) × Bool
  | [] => ([], [], [], true)
  | a :: rest =>
    if a.active = false then
      let (as, evs, calls, ok) := checkPriceAlertsGo throws md rest
      (a :: as, evs, calls, ok)
    else
      match (List.find? (fun m => m.productId == a.productId) md : Option MarketSnapshot) with
      | none =>
          let (as, evs, calls, ok) := checkPriceAlertsGo throws md rest
          (a :: as, evs, calls, ok)
      | some m =>
          if alertTriggered a m.price then
            let ev := Event.priceAlert a.id a.productId m.price a.targetPrice
            if a.hasCallback && throws a.id then
              (a :: rest, [ev], [(a.id, m.price)], false)
            else
              let (as, evs, calls, ok) := checkPriceAlertsGo throws md rest
              ({ a with active := false } :: as, ev :: evs,
                (if a.hasCallback then [(a.id, m.price)] else []) ++ calls, ok)
          else
            let (as, evs, calls, ok) := checkPriceAlertsGo throws md rest
            (a :: as, evs, calls, ok)

/-- `checkPriceAlerts` on the agent state. -/
def checkPriceAlerts (throws : String → Bool) (s : AgentState) :
    AgentState × List Event × List (String × ℚ) × Bool :=
  let (alerts, evs, calls, ok) := checkPriceAlertsGo throws s.marketData s.priceAlerts
  ({ s with priceAlerts := alerts }, evs, calls, ok)

/-- Result of evaluating one strategy: normal completion with the updated
strategy, state and events, or a caught failure carrying the strategy and
state exactly as the exception left them. -/
inductive StratResult where
  | ok (st : Strategy) (s : AgentState) (evs : List Event)
  | err (e : TradeError) (st : Strategy) (s : AgentState)
deriving DecidableEq, Repr

/-- `executeDCAStrategy`: skips while `lastExecution` is truthy and the
interval has not elapsed, otherwise market-buys `amountPerTrade` and
records `lastExecution = now`. -/
def executeDCAStrategy (s : AgentState) (st : Strategy) (amountPerTrade : String)
    (intervalMinutes : ℚ) (lastExecution : Option ℚ) (now : ℚ) (tradeId ts : String) :
    StratResult :=
  if jsTruthy lastExecution &&
      decide (now - lastExecution.getD 0 < intervalMinutes * 60 * 1000) then
    .ok st s []
  else
    match executeTrade s
        { productId := st.productId, orderType := .market, side := .buy,
          amount := amountPerTrade } tradeId ts with
    | .error e => .err e st s
    | .ok (_, s', evs) =>
        .ok { st with params := .dca amountPerTrade intervalMinutes (some now) } s' evs

/-- The grid lines hit by the current price: indices `i < gridLevels` whose
line `lowerPrice + i * gridSize` lies strictly within `gridSize * 0.1` of
the price. -/
def gridHits (lowerPrice upperPrice : ℚ) (gridLevels : ℕ) (currentPrice : ℚ) : List ℕ :=
  let gridSize := (upperPrice - lowerPrice) / (gridLevels : ℚ)
  (List.range gridLevels).filter
    (fun i => decide (|currentPrice - (lowerPrice + (i : ℚ) * gridSize)| < gridSize * (1 / 10)))

/-- `executeGridStrategy`: reads the current price and signals the grid
levels within tolerance; mutates nothing and submits no trades. -/
def executeGridStrategy (s : AgentState) (st : Strategy)
    (lowerPrice upperPrice : ℚ) (gridLevels : ℕ) : StratResult :=
  match getCurrentPrice s st.productId with
  | .error e => .err e st s
  | .ok currentPrice =>
      .ok st s
        ((gridHits lowerPrice upperPrice gridLevels currentPrice).map
          (fun i => .gridLevelHit st.id i))

/-- `executeMomentumStrategy`: on a truthy `lastPrice` computes the
percentage change and trades when its magnitude reaches the threshold
(buy when positive, sell otherwise); always records
`lastPrice = currentPrice` on normal completion. -/
def executeMomentumStrategy (s : AgentState) (st : Strategy) (threshold : ℚ)
    (tradeAmount : String) (lastPrice : Option ℚ) (tradeId ts : String) : StratResult :=
  match getCurrentPrice s st.productId with
  | .error e => .err e st s
  | .ok currentPrice =>
      let st' : Strategy :=
        { st with params := .momentum threshold tradeAmount (some currentPrice) }
      if jsTruthy lastPrice then
        let last := lastPrice.getD 0
        let priceChange := (currentPrice - last) / last * 100
        if |priceChange| ≥ threshold then
          if 0 < priceChange then
            match executeTrade s
                { productId := st.productId, orderType := .market, side := .buy,
                  amount := tradeAmount } tradeId ts with
            | .error e => .err e st s
            | .ok (_, s', evs) => .ok st' s' evs
          else
            match executeTrade s
                { productId := st.productId, orderType := .market, side := .sell,
                  amount := tradeAmount } tradeId ts with
            | .error e => .err e st s
            | .ok (_, s', evs) => .ok st' s' evs
        else
          .ok st' s []
      else
        .ok st' s []

/-- The post-push price history of the mean-reversion evaluator: append
the current price, then shift the oldest entry off when the length
exceeds the lookback period. -/
def mrNewHistory (lookbackPeriod : ℕ) (priceHistory : List ℚ) (currentPrice : ℚ) : List ℚ :=
  let h1 := priceHistory ++ [currentPrice]
  if lookbackPeriod < h1.length then h1.tail else h1

/-- The mean-reversion signal decision over the post-push buffer, exactly
as the source computes it: population mean and variance divided by the
lookback period, `stdDev = sqrtFn variance`, `zScore` by JavaScript
division, buy on `zScore < -threshold`, sell on `zScore > threshold`. -/
def meanReversionSignal (sqrtFn : ℚ → ℚ) (lookbackPeriod : ℕ) (stdDevThreshold : ℚ)
    (h2 : List ℚ) (currentPrice : ℚ) : Option Side :=
  if h2.length = lookbackPeriod then
    let mean := h2.sum / (lookbackPeriod : ℚ)
    let variance := (h2.map (fun p => (p - mean) ^ 2)).sum / (lookbackPeriod : ℚ)
    let stdDev := sqrtFn variance
    let zScore := jsDiv (currentPrice - mean) stdDev
    if jsLtQ zScore (-stdDevThreshold) then some .buy
    else if jsGtQ zScore stdDevThreshold then some .sell
    else none
  else none

/-- `executeMeanReversionStrategy`: push the price into the bounded
history, and once the buffer is full trade on the z-score signal.  The
push precedes any possible trade failure, so the error result carries the
updated history. -/
def executeMeanReversionStrategy (sqrtFn : ℚ → ℚ) (s : AgentState) (st : Strategy)
    (lookbackPeriod : ℕ) (stdDevThreshold : ℚ) (tradeAmount : String)
    (priceHistory : List ℚ) (tradeId ts : String) : StratResult :=
  match getCurrentPrice s st.productId with
  | .error e => .err e st s
  | .ok currentPrice =>
      let h2 := mrNewHistory lookbackPeriod priceHistory currentPrice
      let st' : Strategy :=
        { st with params := .meanReversion lookbackPeriod stdDevThreshold tradeAmount h2 }
      match meanReversionSignal sqrtFn lookbackPeriod stdDevThreshold h2 currentPrice with
      | some side =>
          match executeTrade s
              { productId := st.productId, orderType := .market, side := side,
                amount := tradeAmount } tradeId ts with
          | .error e => .err e st' s
          | .ok (_, s', evs) => .ok st' s' evs
      | none => .ok st' s []

/-- The per-strategy dispatch of `executeActiveStrategies`. -/
def runStrategy (sqrtFn : ℚ → ℚ) (s : AgentState) (st : Strategy) (now : ℚ)
    (tradeId ts : String) : StratResult :=
  match st.params with
  | .dca amt interval lastExec =>
      executeDCAStrategy s st amt interval lastExec now tradeId ts
  | .grid lo hi levels _amountPerLevel _activeLevels =>
      executeGridStrategy s st lo hi levels
  | .momentum threshold amt lastPrice =>
      executeMomentumStrategy s st threshold amt lastPrice tradeId ts
  | .meanReversion lookback threshold amt history =>
      executeMeanReversionStrategy sqrtFn s st lookback threshold amt history tradeId ts

/-- The `executeActiveStrategies` loop: evaluate each enabled strategy in
insertion order, catching each failure (the error is recorded and the
iteration continues with the partially updated strategy and state). -/
def executeActiveStrategies (sqrtFn : ℚ → ℚ) (now : ℚ) (tradeId ts : String) :
    AgentState → List Strategy →
      List Strategy × AgentState × List Event × List (String × TradeError)
  | s, [] => ([], s, [], [])
  | s, st :: rest =>
    if st.enabled = false then
      let (sts, s', evs, errs) := executeActiveStrategies sqrtFn now tradeId ts s rest
      (st :: sts, s', evs, errs)
    else
      match runStrategy sqrtFn s st now tradeId ts with
      | .ok st' s' evs =>
          let (sts, s'', evs', errs) := executeActiveStrategies sqrtFn now tradeId ts s' rest
          (st' :: sts, s'', evs ++ evs', errs)
      | .err e st' s' =>
          let (sts, s'', evs', errs) := executeActiveStrategies sqrtFn now tradeId ts s' rest
          (st' :: sts, s'', evs', (st.id, e) :: errs)

/-- `executeActiveStrategies` on the agent state. -/
def runAllStrategies (sqrtFn : ℚ → ℚ) (now : ℚ) (tradeId ts : String) (s : AgentState) :
    AgentState × List Event × List (String × TradeError) :=
  let (sts, s', evs, errs) := executeActiveStrategies sqrtFn now tradeId ts s s.strategies
  ({ s' with strategies := sts }, evs, errs)

/-- One monitoring cycle: refresh the market data store (the freshly
fetched snapshots are an input), scan the alerts, then evaluate the
strategies.  A throwing alert callback rejects the cycle's promise: the
strategy phase is skipped and the completion flag is `false`. -/
def monitoringCycle (sqrtFn : ℚ → ℚ) (s : AgentState) (md : List MarketSnapshot)
    (throws : String → Bool) (now : ℚ) (tradeId ts : String) :
    AgentState × List Event × Bool :=
  let s1 := { s with marketData := md }
  let (s2, evs1, _calls, ok) := checkPriceAlerts throws s1
  if ok then
    let (s3, evs2, _errs) := runAllStrategies sqrtFn now tradeId ts s2
    (s3, evs1 ++ evs2, true)
  else (s2, evs1, false)

/-- The public operations of the agent plus the scheduled cycle, for
trace-level properties.  Generated ids, clock values, refreshed market
data and callback behaviour are carried as operation inputs. -/
inductive Op where
  | initAgent
  | createAlert (id productId : String) (targetPrice : ℚ) (condition : Condition)
      (hasCallback : Bool)
  | removeAlert (id : String)
  | createStrategyOp (st : Strategy)
  | enableStrategyOp (id : String)
  | disableStrategyOp (id : String)
  | executeTradeOp (config : TradeConfig) (tradeId ts : String)
  | cycleOp (md : List MarketSnapshot) (throws : String → Bool) (now : ℚ)
      (tradeId ts : String)

/-- Apply one operation, returning the new state and the emitted events.
A failing `executeTrade` surfaces its error to the caller and leaves the
state unchanged. -/
def applyOp (sqrtFn : ℚ → ℚ) (s : AgentState) : Op → AgentState × List Event
  | .initAgent => ({ s with account := true }, [])
  | .createAlert id productId targetPrice condition hasCallback =>
      let alert : PriceAlert :=
        { id := id, productId := productId, targetPrice := targetPrice,
          condition := condition, active := true, hasCallback := hasCallback }
      ({ s with priceAlerts := mapSetBy (fun a => a.id) s.priceAlerts alert }, [])
  | .removeAlert id =>
      ({ s with priceAlerts := s.priceAlerts.filter (fun a => a.id != id) }, [])
  | .createStrategyOp st =>
      ({ s with strategies := mapSetBy (fun st => st.id) s.strategies st }, [])
  | .enableStrategyOp id =>
      let sts := s.strategies.map
        (fun st => if st.id == id then { st with enabled := true } else st)
      ({ s with strategies := sts }, [])
  | .disableStrategyOp id =>
      let sts := s.strategies.map
        (fun st => if st.id == id then { st with enabled := false } else st)
      ({ s with strategies := sts }, [])
  | .executeTradeOp config tradeId ts =>
      match executeTrade s config tradeId ts with
      | .ok (_, s', evs) => (s', evs)
      | .error _ => (s, [])
  | .cycleOp md throws now tradeId ts =>
      let (s', evs, _ok) := monitoringCycle sqrtFn s md throws now tradeId ts
      (s', evs)

/-- Apply a sequence of operations, accumulating the emitted events. -/
def applyOps (sqrtFn : ℚ → ℚ) (s : AgentState) : List Op → AgentState × List Event
  | [] => (s, [])
  | op :: ops =>
      let (s', evs) := applyOp sqrtFn s op
      let (s'', evs') := applyOps sqrtFn s' ops
      (s'', evs ++ evs')

/-- Every alert entry with the given id is inactive. -/
def alertInactive (s : AgentState) (aid : String) : Prop :=
  ∀ a ∈ s.priceAlerts, a.id = aid → a.active = false

/-- Whether an operation creates an alert under the given id (used to
state that generated alert ids are fresh). -/
def opCreatesAlert (op : Op) (aid : String) : Bool :=
  match op with
  | .createAlert id _ _ _ _ => id == aid
  | _ => false

/-- The scan decision for one alert in one cycle: active, with a snapshot
for its instrument, and the snapshot price satisfying its condition. -/
def alertTriggers (md : List MarketSnapshot) (a : PriceAlert) : Bool :=
  a.active &&
    match List.find? (fun m => m.productId == a.productId) md with
    | none => false
    | some m => alertTriggered a m.price

/-- The snapshot price the scan would use for an alert (`0` when the
instrument has no snapshot; only applied to alerts that have one). -/
def alertSnapshotPrice (md : List MarketSnapshot) (a : PriceAlert) : ℚ :=
  match List.find? (fun m => m.productId == a.productId) md with
  | none => 0
  | some m => m.price

/-- The events produced by a strategy evaluation (none when it threw). -/
def stratResultEvents : StratResult → List Event
  | .ok _ _ evs => evs
  | .err _ _ _ => []

/-- The sides of the trades among a list of events. -/
def eventSides (evs : List Event) : List Side :=
  evs.filterMap (fun ev => match ev with
    | .tradeExecuted td => some td.side
    | _ => none)

/-- Population mean of a list of prices. -/
def populationMean (l : List ℚ) : ℚ := l.sum / (l.length : ℚ)

/-- Population variance of a list of prices. -/
def populationVariance (l : List ℚ) : ℚ :=
  (l.map (fun p => (p - populationMean l) ^ 2)).sum / (l.length : ℚ)

/-- Modelled from the spec's words (with the comparison operators
amended to the strict ones the source uses): once the buffer is full,
compute the population mean and standard deviation over the buffer and
`zScore = (current - mean) / stdDev`, guarding `stdDev = 0` as no signal;
buy if `zScore < -threshold`, sell if `zScore > threshold`.  Stated for
comparison with the translated evaluator. -/
def meanReversionSignalSpec (sqrtFn : ℚ → ℚ) (lookbackPeriod : ℕ) (stdDevThreshold : ℚ)
    (buffer : List ℚ) (current : ℚ) : Option Side :=
  if buffer.length = lookbackPeriod then
    let mean := populationMean buffer
    let stdDev := sqrtFn (populationVariance buffer)
    if stdDev = 0 then none
    else if (current - mean) / stdDev < -stdDevThreshold then some .buy
    else if stdDevThreshold < (current - mean) / stdDev then some .sell
    else none
  else none

/-! ### Concrete fixtures for witnesses and counterexamples -/

/-- A BTC-USD snapshot at price 50000. -/
def btcSnap : MarketSnapshot :=
  { productId := "BTC-USD", price := 50000, volume24h := 1, priceChange24h := 0, timestamp := 0 }

/-- An ETH-USD snapshot at price 2503 (inside the tolerance band of grid
level 5 for the 2000–3000, 10-level grid). -/
def ethSnap : MarketSnapshot :=
  { productId := "ETH-USD", price := 2503, volume24h := 1, priceChange24h := 0, timestamp := 0 }

/-- A BTC-USD snapshot at price 45500 (above a 45000 target). -/
def btc45500 : MarketSnapshot :=
  { productId := "BTC-USD", price := 45500, volume24h := 1, priceChange24h := 0, timestamp := 0 }

/-- An initialized agent holding only the BTC snapshot. -/
def baseState : AgentState :=
  { account := true, aiEnabled := false, priceAlerts := [], strategies := [],
    marketData := [btcSnap], orderHistory := [] }

/-- An agent that was never initialized. -/
def uninitState : AgentState :=
  { account := false, aiEnabled := false, priceAlerts := [], strategies := [],
    marketData := [btcSnap], orderHistory := [] }

/-- An initialized agent with an empty market data store. -/
def noDataState : AgentState :=
  { account := true, aiEnabled := false, priceAlerts := [], strategies := [],
    marketData := [], orderHistory := [] }

/-- A market-buy configuration on BTC-USD. -/
def mktCfg : TradeConfig :=
  { productId := "BTC-USD", orderType := .market, side := .buy, amount := "0.001" }

/-- A limit-buy configuration on BTC-USD with limit price "49000". -/
def limitCfg : TradeConfig :=
  { productId := "BTC-USD", orderType := .limit, side := .buy, amount := "0.001",
    limitPrice := some "49000" }

/-- A 2000–3000, 10-level grid strategy on ETH-USD. -/
def gridStrat : Strategy :=
  { id := "g1", name := "Grid - ETH-USD", enabled := true, productId := "ETH-USD",
    params := .grid 2000 3000 10 "0.05" [] }

/-- An initialized agent running only the grid strategy. -/
def gridState : AgentState :=
  { account := true, aiEnabled := false, priceAlerts := [], strategies := [gridStrat],
    marketData := [ethSnap], orderHistory := [] }

/-- A momentum strategy with threshold 0 whose recorded last price equals
the current BTC price. -/
def momCEStrat : Strategy :=
  { id := "m1", name := "Momentum - BTC-USD", enabled := true, productId := "BTC-USD",
    params := .momentum 0 "1" (some 50000) }

/-- A momentum strategy on its first evaluation (no recorded last price). -/
def momWStrat : Strategy :=
  { id := "m2", name := "Momentum - BTC-USD", enabled := true, productId := "BTC-USD",
    params := .momentum 5 "1" none }

/-- A DCA strategy on BTC-USD that has never fired. -/
def dcaWStrat : Strategy :=
  { id := "d1", name := "DCA - BTC-USD", enabled := true, productId := "BTC-USD",
    params := .dca "0.001" 60 none }

/-- A mean-reversion strategy (lookback 2, threshold 1) holding one price. -/
def mrStrat : Strategy :=
  { id := "r1", name := "Mean Reversion - BTC-USD", enabled := true, productId := "BTC-USD",
    params := .meanReversion 2 1 "1" [100] }

/-- A BTC-USD snapshot at price 102 (completes the `[100, 102]` buffer
whose z-score is exactly 1). -/
def btc102 : MarketSnapshot :=
  { productId := "BTC-USD", price := 102, volume24h := 1, priceChange24h := 0, timestamp := 0 }

/-- A BTC-USD snapshot at price 100 (completes the constant `[100, 100]`
buffer with zero variance). -/
def btc100 : MarketSnapshot :=
  { productId := "BTC-USD", price := 100, volume24h := 1, priceChange24h := 0, timestamp := 0 }

/-- An initialized agent whose BTC snapshot has price 102. -/
def state102 : AgentState :=
  { account := true, aiEnabled := false, priceAlerts := [], strategies := [],
    marketData := [btc102], orderHistory := [] }

/-- An initialized agent whose BTC snapshot has price 100. -/
def state100 : AgentState :=
  { account := true, aiEnabled := false, priceAlerts := [], strategies := [],
    marketData := [btc100], orderHistory := [] }

/-- An "above 45000" BTC alert with a callback. -/
def cbAlert : PriceAlert :=
  { id := "a1", productId := "BTC-USD", targetPrice := 45000, condition := .above,
    active := true, hasCallback := true }

/-- A second, callback-free "below 46000" BTC alert (triggers at 45500). -/
def plainAlert : PriceAlert :=
  { id := "a2", productId := "BTC-USD", targetPrice := 46000, condition := .below,
    active := true, hasCallback := false }

/-- An already-inactive "above 44000" BTC alert. -/
def doneAlert : PriceAlert :=
  { id := "a0", productId := "BTC-USD", targetPrice := 44000, condition := .above,
    active := false, hasCallback := false }

/-- An uninitialized agent holding only the callback alert. -/
def oneAlertState : AgentState :=
  { account := false, aiEnabled := false, priceAlerts := [cbAlert], strategies := [],
    marketData := [], orderHistory := [] }

/-- An uninitialized agent holding the callback alert then the plain alert. -/
def twoAlertState : AgentState :=
  { account := false, aiEnabled := false, priceAlerts := [cbAlert, plainAlert],
    strategies := [], marketData := [], orderHistory := [] }

/-- An uninitialized agent holding only the inactive alert. -/
def doneAlertState : AgentState :=
  { account := false, aiEnabled := false, priceAlerts := [doneAlert], strategies := [],
    marketData := [], orderHistory := [] }

/-- Two monitoring cycles at BTC price 45500 whose alert callbacks throw. -/
def twoCycleOps : List Op :=
  [.cycleOp [btc45500] (fun _ => true) 0 "t1" "ts1",
   .cycleOp [btc45500] (fun _ => true) 5000 "t2" "ts2"]

/-- One monitoring cycle at BTC price 45500 with well-behaved callbacks. -/
def oneCycleOps : List Op :=
  [.cycleOp [btc45500] (fun _ => false) 0 "t1" "ts1"]

/-- The record of the DCA fixture's first market buy. -/
def dcaTd : TradeRecord :=
  mkTradeRecord
    { productId := "BTC-USD", orderType := .market, side := .buy, amount := "0.001" }
    "t1" "ts" 50000

/-! ### C2: the trade submission gateway -/

/-- C2 (amended): `executeTrade` fails with `notInitialized` when no
account context exists; otherwise — for MARKET and LIMIT orders alike —
it takes `executedPrice` from the market data store's current price for
the instrument (failing with `noMarketData` when no snapshot exists; the
supplied `limitPrice` is recorded on the trade but does not determine
`executedPrice`), and on success it appends the record as the last
element of the order history, emits a trade-executed event carrying the
full record, and returns that record. -/
theorem executeTrade_gateway (s : AgentState) (config : TradeConfig) (tid ts : String) :
    (s.account = false → executeTrade s config tid ts = .error .notInitialized) ∧
    (s.account = true → getMarketData s config.productId = none →
      executeTrade s config tid ts = .error (.noMarketData config.productId)) ∧
    (∀ m, s.account = true → getMarketData s config.productId = some m →
      ∃ td s', executeTrade s config tid ts = .ok (td, s', [.tradeExecuted td]) ∧
        td.executedPrice = m.price ∧ td.side = config.side ∧
        td.orderType = config.orderType ∧ td.amount = config.amount ∧
        td.productId = config.productId ∧ td.limitPrice = config.limitPrice ∧
        td.id = tid ∧ td.timestamp = ts ∧ td.status = "completed" ∧
        s'.orderHistory = s.orderHistory ++ [td] ∧ s'.orderHistory.getLast? = some td ∧
        s'.priceAlerts = s.priceAlerts ∧ s'.strategies = s.strategies ∧
        s'.marketData = s.marketData ∧ s'.account = s.account) := by
  refine ⟨fun hacc => ?_, fun hacc hmd => ?_, fun m hacc hmd => ?_⟩
  · simp [executeTrade, hacc]
  · simp [executeTrade, hacc, getCurrentPrice, hmd]
  · refine ⟨mkTradeRecord config tid ts m.price,
      { s with orderHistory := s.orderHistory ++ [mkTradeRecord config tid ts m.price] },
      ?_, rfl, rfl, rfl, rfl, rfl, rfl, rfl, rfl, rfl, rfl, ?_, rfl, rfl, rfl, rfl⟩
    · simp [executeTrade, hacc, getCurrentPrice, hmd]
    · simp

/-- C2 witness: all three branches of `executeTrade_gateway`
instantiated — an uninitialized agent, a missing snapshot, and a
successful market buy stamped with the store price 50000. -/
theorem executeTrade_gateway_witness :
    executeTrade uninitState mktCfg "t1" "ts" = .error .notInitialized ∧
    executeTrade noDataState mktCfg "t1" "ts" = .error (.noMarketData "BTC-USD") ∧
    (executeTrade baseState mktCfg "t1" "ts").toOption.map
      (fun r => (r.1.executedPrice, r.1.side, r.2.1.orderHistory.getLast?.map
        (fun td => td.id))) = some (50000, .buy, some "t1") := by
  have h1 := (executeTrade_gateway uninitState mktCfg "t1" "ts").1 rfl
  have h2 := (executeTrade_gateway noDataState mktCfg "t1" "ts").2.1 rfl rfl
  obtain ⟨td, s', heq, hp, hside, -, -, -, -, hid, -, -, -, hlast, -⟩ :=
    (executeTrade_gateway baseState mktCfg "t1" "ts").2.2 btcSnap rfl
      (by simp [getMarketData, baseState, btcSnap, List.find?, mktCfg])
  refine ⟨h1, h2, ?_⟩
  rw [heq]
  simp [Except.toOption, hp, hside, hlast, hid, btcSnap, mktCfg]

/-- C2 counterexample: a LIMIT buy with supplied limit price "49000"
against a store price of 50000 is stamped with `executedPrice = 50000`,
not the supplied limit price — refuting "for LIMIT orders executedPrice
equals the supplied limitPrice". -/
theorem executeTrade_limit_counterexample :
    (executeTrade baseState limitCfg "t1" "ts").toOption.map
      (fun r => (r.1.executedPrice, r.1.limitPrice)) = some (50000, some "49000") ∧
    (50000 : ℚ) ≠ 49000 := by
  constructor
  · norm_num [executeTrade, getCurrentPrice, getMarketData, baseState, btcSnap,
      List.find?, limitCfg, Except.toOption, mkTradeRecord]
  · norm_num

/-! ### C10: the grid evaluator is read-only and trade-free -/

/-- C10 (confirmed): for every grid strategy and every state in which
its instrument has a snapshot, evaluating the grid strategy returns the
state exactly unchanged (in particular the order history) and the
strategy record exactly unchanged (all parameters including
`activeLevels`), never calls the trade-submission path, and produces only
grid-level-hit signals computed from the current price — no trade events
and no alert events. -/
theorem grid_strategy_frame (sqrtFn : ℚ → ℚ) (s : AgentState) (st : Strategy)
    (lo hi : ℚ) (levels : ℕ) (apl : String) (al : List ℕ) (now : ℚ) (tid ts : String)
    (m : MarketSnapshot)
    (hst : st.params = .grid lo hi levels apl al)
    (hmd : getMarketData s st.productId = some m) :
    runStrategy sqrtFn s st now tid ts =
      .ok st s ((gridHits lo hi levels m.price).map (fun i => Event.gridLevelHit st.id i)) ∧
    (∀ td, Event.tradeExecuted td ∉
      (gridHits lo hi levels m.price).map (fun i => Event.gridLevelHit st.id i)) ∧
    (∀ aid pid p tp, Event.priceAlert aid pid p tp ∉
      (gridHits lo hi levels m.price).map (fun i => Event.gridLevelHit st.id i)) := by
  refine ⟨?_, by simp, by simp⟩
  simp [runStrategy, hst, executeGridStrategy, getCurrentPrice, hmd]

/-- C10 witness: the grid fixture at ETH price 2503 evaluates to the
unchanged strategy and state with only the level-5 hit signal. -/
theorem grid_strategy_frame_witness :
    runStrategy ratSqrt gridState gridStrat 0 "t1" "ts" =
      .ok gridStrat gridState [Event.gridLevelHit "g1" 5] ∧
    Event.tradeExecuted
      { id := "t1", productId := "ETH-USD", orderType := .market, side := .buy,
        amount := "0.05", limitPrice := none, status := "completed", timestamp := "ts",
        executedPrice := 2503 } ∉ [Event.gridLevelHit "g1" 5] := by
  have h := grid_strategy_frame ratSqrt gridState gridStrat 2000 3000 10 "0.05" [] 0 "t1" "ts"
    ethSnap rfl (by simp [getMarketData, gridState, gridStrat, ethSnap, List.find?])
  have hhits : gridHits 2000 3000 10 ethSnap.price = [5] := by
    norm_num [gridHits, ethSnap, List.range_succ, List.filter]
  constructor
  · have := h.1
    rwa [hhits] at this
  · simp

/-! ### C5: grid level hits re-fire every cycle (latent bug) -/

/-- C5: the failing input evaluated on the code.  With the
2000–3000, 10-level grid (step 100) and a constant price 2503, the scan
signals a hit for level index 5, and — because the evaluator keeps no
"already filled" state — it signals the same level again on the very
next cycle, contradicting "exactly once per entry into its tolerance
band". -/
theorem grid_level_refires :
    gridHits 2000 3000 10 2503 = [5] ∧
    (Event.gridLevelHit "g1" 5 ∈
      (monitoringCycle ratSqrt gridState [ethSnap] (fun _ => false) 0 "t1" "ts1").2.1) ∧
    (Event.gridLevelHit "g1" 5 ∈
      (monitoringCycle ratSqrt
        (monitoringCycle ratSqrt gridState [ethSnap] (fun _ => false) 0 "t1" "ts1").1
        [ethSnap] (fun _ => false) 5000 "t2" "ts2").2.1) := by
  refine ⟨by norm_num [gridHits, List.range_succ, List.filter], ?_, ?_⟩ <;>
    norm_num [monitoringCycle, checkPriceAlerts, checkPriceAlertsGo, runAllStrategies,
      executeActiveStrategies, runStrategy, executeGridStrategy, getCurrentPrice,
      getMarketData, gridState, ethSnap, gridStrat, List.find?, gridHits,
      List.range_succ, List.filter]

/-! ### C8: the DCA evaluator -/

/-- C8 (confirmed): a DCA evaluation submits a market buy of exactly
`amountPerTrade` on the strategy's instrument precisely when
`lastExecutionTime` is absent (the first run fires immediately) or
`now - lastExecutionTime ≥ intervalMinutes` in milliseconds, recording
`lastExecutionTime = now` after firing; in the remaining case
(`now - lastExecutionTime < intervalMinutes`) it changes nothing.
Consequently a fire that follows a previous fire at `t0` has
`now - t0 ≥ intervalMinutes` (the spacing guarantee, first fire
excepted).  Fire times produced by a real clock are positive, which the
`t0 ≠ 0` hypothesis records. -/
theorem dca_evaluator (sqrtFn : ℚ → ℚ) (s : AgentState) (st : Strategy) (amt : String)
    (interval : ℚ) (last : Option ℚ) (now : ℚ) (tid ts : String) (m : MarketSnapshot)
    (hst : st.params = .dca amt interval last)
    (hacc : s.account = true) (hmd : getMarketData s st.productId = some m)
    (hlast : ∀ t0, last = some t0 → t0 ≠ 0) :
    ((last = none ∨ ∃ t0, last = some t0 ∧ interval * 60 * 1000 ≤ now - t0) →
      runStrategy sqrtFn s st now tid ts =
        .ok { st with params := .dca amt interval (some now) }
          { s with orderHistory := s.orderHistory ++ [mkTradeRecord { productId := st.productId, orderType := .market, side := .buy, amount := amt } tid ts m.price] }
          [.tradeExecuted (mkTradeRecord { productId := st.productId, orderType := .market, side := .buy, amount := amt } tid ts m.price)]) ∧
    ((∃ t0, last = some t0 ∧ now - t0 < interval * 60 * 1000) →
      runStrategy sqrtFn s st now tid ts = .ok st s []) := by
  constructor
  · rintro (rfl | ⟨t0, rfl, hel⟩)
    · simp [runStrategy, hst, executeDCAStrategy, jsTruthy, executeTrade, hacc,
        getCurrentPrice, hmd]
    · have hne : t0 ≠ 0 := hlast t0 rfl
      have hnlt : ¬(now - t0 < interval * 60 * 1000) := not_lt.mpr hel
      simp [runStrategy, hst, executeDCAStrategy, jsTruthy, hne, hnlt, executeTrade,
        hacc, getCurrentPrice, hmd]
  · rintro ⟨t0, rfl, hlt⟩
    have hne : t0 ≠ 0 := hlast t0 rfl
    simp [runStrategy, hst, executeDCAStrategy, jsTruthy, hne, hlt]

/-- C8 witness: the never-fired DCA fixture fires immediately at
`now = 0`, buying "0.001" BTC at the store price and recording the fire
time. -/
theorem dca_evaluator_witness :
    runStrategy ratSqrt baseState dcaWStrat 0 "t1" "ts" =
      .ok { dcaWStrat with params := .dca "0.001" 60 (some 0) }
        { baseState with orderHistory := [dcaTd] } [.tradeExecuted dcaTd] := by
  have h := (dca_evaluator ratSqrt baseState dcaWStrat "0.001" 60 none 0 "t1" "ts" btcSnap
    rfl rfl (by simp [getMarketData, baseState, btcSnap, List.find?, dcaWStrat])
    (by intro t0 h; cases h)).1 (Or.inl rfl)
  simpa [baseState, btcSnap, dcaWStrat, dcaTd] using h

/-! ### C9: the momentum evaluator -/

/-- C9 (amended): the first momentum evaluation records `lastPrice`
and submits no trade; a later evaluation with recorded price `l > 0`
computes `pctChange = (current - l)/l*100` and submits a market buy of
`tradeAmount` when `|pctChange| ≥ threshold` and `pctChange` is
positive, a market sell of `tradeAmount` when `|pctChange| ≥ threshold`
and `pctChange` is **non-positive** (the source sells on the
`pctChange = 0`, `threshold ≤ 0` edge, where the claim said "negative"),
and no trade when `|pctChange| < threshold`; in every case `lastPrice`
is updated to the price observed in that same cycle. -/
theorem momentum_evaluator (sqrtFn : ℚ → ℚ) (s : AgentState) (st : Strategy) (th : ℚ)
    (amt : String) (last : Option ℚ) (now : ℚ) (tid ts : String) (m : MarketSnapshot)
    (hst : st.params = .momentum th amt last)
    (hacc : s.account = true) (hmd : getMarketData s st.productId = some m)
    (hlast : ∀ l, last = some l → 0 < l) :
    (last = none →
      runStrategy sqrtFn s st now tid ts =
        .ok { st with params := .momentum th amt (some m.price) } s []) ∧
    (∀ l, last = some l →
      (th ≤ |(m.price - l) / l * 100| → 0 < (m.price - l) / l * 100 →
        runStrategy sqrtFn s st now tid ts =
          .ok { st with params := .momentum th amt (some m.price) }
            { s with orderHistory := s.orderHistory ++ [mkTradeRecord { productId := st.productId, orderType := .market, side := .buy, amount := amt } tid ts m.price] }
            [.tradeExecuted (mkTradeRecord { productId := st.productId, orderType := .market, side := .buy, amount := amt } tid ts m.price)]) ∧
      (th ≤ |(m.price - l) / l * 100| → ¬0 < (m.price - l) / l * 100 →
        runStrategy sqrtFn s st now tid ts =
          .ok { st with params := .momentum th amt (some m.price) }
            { s with orderHistory := s.orderHistory ++ [mkTradeRecord { productId := st.productId, orderType := .market, side := .sell, amount := amt } tid ts m.price] }
            [.tradeExecuted (mkTradeRecord { productId := st.productId, orderType := .market, side := .sell, amount := amt } tid ts m.price)]) ∧
      (¬th ≤ |(m.price - l) / l * 100| →
        runStrategy sqrtFn s st now tid ts =
          .ok { st with params := .momentum th amt (some m.price) } s [])) := by
  constructor
  · rintro rfl
    simp [runStrategy, hst, executeMomentumStrategy, getCurrentPrice, hmd, jsTruthy]
  · rintro l rfl
    have hpos : 0 < l := hlast l rfl
    have hne : l ≠ 0 := ne_of_gt hpos
    refine ⟨fun hth hsign => ?_, fun hth hsign => ?_, fun hth => ?_⟩
    · simp [runStrategy, hst, executeMomentumStrategy, getCurrentPrice, hmd, jsTruthy,
        hne, hth, hsign, executeTrade, hacc]
    · simp [runStrategy, hst, executeMomentumStrategy, getCurrentPrice, hmd, jsTruthy,
        hne, hth, hsign, executeTrade, hacc]
    · simp [runStrategy, hst, executeMomentumStrategy, getCurrentPrice, hmd, jsTruthy,
        hne, hth]

/-- C9 witness: the first-evaluation fixture records the observed
price 50000 and submits no trade. -/
theorem momentum_evaluator_witness :
    runStrategy ratSqrt baseState momWStrat 0 "t1" "ts" =
      .ok { momWStrat with params := .momentum 5 "1" (some 50000) } baseState [] := by
  have h := (momentum_evaluator ratSqrt baseState momWStrat 5 "1" none 0 "t1" "ts" btcSnap
    rfl rfl (by simp [getMarketData, baseState, btcSnap, List.find?, momWStrat])
    (by intro l h; cases h)).1 rfl
  simpa [btcSnap] using h

/-- C9 counterexample: with threshold 0 and an unchanged price
(`pctChange = 0`, which is not negative), the evaluator submits a market
sell — refuting "no trade otherwise". -/
theorem momentum_zero_threshold_counterexample :
    eventSides (stratResultEvents (runStrategy ratSqrt baseState momCEStrat 0 "t1" "ts")) =
      [.sell] ∧
    ((50000 : ℚ) - 50000) / 50000 * 100 = 0 := by
  constructor
  · norm_num [runStrategy, momCEStrat, executeMomentumStrategy, getCurrentPrice,
      getMarketData, baseState, btcSnap, List.find?, jsTruthy, executeTrade,
      stratResultEvents, eventSides, mkTradeRecord, List.filterMap]
  · norm_num

/-! ### Mean reversion: supporting lemmas -/

/-- A list of nonnegative rationals summing to zero is all zeros. -/
theorem sum_eq_zero_of_nonneg :
    ∀ (l : List ℚ), (∀ x ∈ l, 0 ≤ x) → l.sum = 0 → ∀ x ∈ l, x = 0 := by
  intro l
  induction l with
  | nil => simp
  | cons a t ih =>
    intro hpos hsum x hx
    have ha : 0 ≤ a := hpos a (List.mem_cons_self a t)
    have ht : 0 ≤ t.sum := List.sum_nonneg (fun y hy => hpos y (List.mem_cons_of_mem a hy))
    have hsum' : a + t.sum = 0 := by simpa using hsum
    have ha0 : a = 0 := le_antisymm (by linarith) ha
    have ht0 : t.sum = 0 := by linarith
    rcases List.mem_cons.mp hx with hx | hx
    · exact hx.trans ha0
    · exact ih (fun y hy => hpos y (List.mem_cons_of_mem a hy)) ht0 x hx

/-- The population variance of a price list is nonnegative. -/
theorem populationVariance_nonneg (l : List ℚ) : 0 ≤ populationVariance l := by
  refine div_nonneg (List.sum_nonneg ?_) (Nat.cast_nonneg _)
  intro x hx
  obtain ⟨q, -, rfl⟩ := List.mem_map.mp hx
  positivity

/-- A nonempty list with zero population variance is constant at its
mean. -/
theorem eq_mean_of_variance_zero (l : List ℚ) (hl : l ≠ [])
    (hvar : populationVariance l = 0) : ∀ p ∈ l, p = populationMean l := by
  have hlen : ((l.length : ℚ)) ≠ 0 := by
    simpa using hl
  have hsum : (l.map (fun p => (p - populationMean l) ^ 2)).sum = 0 := by
    rw [populationVariance] at hvar
    exact (div_eq_zero_iff.mp hvar).resolve_right hlen
  intro p hp
  have hsq : (p - populationMean l) ^ 2 = 0 := by
    refine sum_eq_zero_of_nonneg _ ?_ hsum _ (List.mem_map_of_mem _ hp)
    intro x hx
    obtain ⟨q, -, rfl⟩ := List.mem_map.mp hx
    positivity
  have hzero : p - populationMean l = 0 := sq_eq_zero_iff.mp hsq
  linarith

/-- With a zero-variance full buffer the source's z-score is the
JavaScript `0 / 0 = NaN`, whose comparisons are all false: the signal is
`none` (and no exception occurs — JavaScript division never throws). -/
theorem meanReversionSignal_none_of_variance_zero (sqrtFn : ℚ → ℚ) (lb : ℕ) (t : ℚ)
    (h2 : List ℚ) (c : ℚ) (hs0 : sqrtFn 0 = 0) (hc : c ∈ h2)
    (hvar : populationVariance h2 = 0) :
    meanReversionSignal sqrtFn lb t h2 c = none := by
  unfold meanReversionSignal
  by_cases hfull : h2.length = lb
  · subst hfull
    have hne : h2 ≠ [] := by rintro rfl; cases hc
    have hmean : c = populationMean h2 := eq_mean_of_variance_zero h2 hne hvar c hc
    have hvar' :
        (h2.map (fun p => (p - h2.sum / (h2.length : ℚ)) ^ 2)).sum / (h2.length : ℚ) = 0 := by
      rw [populationVariance, populationMean] at hvar
      exact hvar
    have hmean' : c - h2.sum / (h2.length : ℚ) = 0 := by
      rw [populationMean] at hmean
      linarith
    simp only [if_pos rfl, hvar', hs0, hmean']
    simp [jsDiv, jsLtQ, jsGtQ]
  · simp [hfull]

/-- The current price is an element of the post-push buffer. -/
theorem mrNewHistory_mem (lb : ℕ) (old : List ℚ) (c : ℚ) (hlb : 0 < lb) :
    c ∈ mrNewHistory lb old c := by
  simp only [mrNewHistory]
  split
  case isTrue h =>
    cases old with
    | nil => simp at h; omega
    | cons a t => simp
  case isFalse h => simp

/-- The post-push buffer is the plain push while filling, and evicts the
oldest entry once the buffer was full. -/
theorem mrNewHistory_eq (lb : ℕ) (old : List ℚ) (c : ℚ) (hlen : old.length ≤ lb) :
    mrNewHistory lb old c =
      if old.length = lb then (old ++ [c]).tail else old ++ [c] := by
  unfold mrNewHistory
  by_cases h : old.length = lb
  · simp [h]
  · have hlt : old.length < lb := lt_of_le_of_ne hlen h
    have hnlt : ¬ lb < old.length + 1 := by omega
    simp [h, hnlt]

/-- The post-push buffer never exceeds the lookback period. -/
theorem mrNewHistory_length_le (lb : ℕ) (old : List ℚ) (c : ℚ) (hlen : old.length ≤ lb) :
    (mrNewHistory lb old c).length ≤ lb := by
  rw [mrNewHistory_eq lb old c hlen]
  by_cases h : old.length = lb
  · simp [h, List.length_tail]
  · have hlt : old.length < lb := lt_of_le_of_ne hlen h
    simp [h]
    omega

/-- The source's signal decision coincides with the spec's
`stdDev = 0`-guarded formulation (with strict threshold comparisons),
for any square root with `sqrtFn v = 0 → v = 0` on nonnegatives. -/
theorem meanReversionSignal_eq_spec (sqrtFn : ℚ → ℚ) (lb : ℕ) (t : ℚ) (h2 : List ℚ)
    (c : ℚ) (hsq : ∀ v, 0 ≤ v → sqrtFn v = 0 → v = 0) (hc : c ∈ h2) :
    meanReversionSignal sqrtFn lb t h2 c = meanReversionSignalSpec sqrtFn lb t h2 c := by
  by_cases hfull : h2.length = lb
  case neg => simp [meanReversionSignal, meanReversionSignalSpec, hfull]
  subst hfull
  by_cases hsd : sqrtFn (populationVariance h2) = 0
  · have hvar : populationVariance h2 = 0 :=
      hsq _ (populationVariance_nonneg h2) hsd
    have hs0 : sqrtFn 0 = 0 := hvar ▸ hsd
    rw [meanReversionSignal_none_of_variance_zero sqrtFn _ t h2 c hs0 hc hvar]
    simp [meanReversionSignalSpec, hsd]
  · unfold meanReversionSignal meanReversionSignalSpec
    have hvar' : (h2.map (fun p => (p - h2.sum / (h2.length : ℚ)) ^ 2)).sum / (h2.length : ℚ) =
        populationVariance h2 := by
      rw [populationVariance, populationMean]
    have hmu : populationMean h2 = h2.sum / (h2.length : ℚ) := rfl
    simp only [if_pos rfl, hvar', hmu, hsd, if_neg hsd]
    have hdiv : jsDiv (c - h2.sum / (h2.length : ℚ)) (sqrtFn (populationVariance h2)) =
        .num ((c - h2.sum / (h2.length : ℚ)) / sqrtFn (populationVariance h2)) := by
      simp [jsDiv, hsd]
    rw [hdiv]
    simp only [jsLtQ, jsGtQ, decide_eq_true_eq]
    simp

/-! ### C6: the mean-reversion evaluator -/

/-- C6 (amended): each mean-reversion evaluation pushes the current
price onto the buffer and evicts the oldest entry beyond the lookback
capacity, so the buffer length never exceeds `lookbackPeriod`; no signal
is produced unless the buffer holds exactly `lookbackPeriod` prices;
once full, the signal follows the population mean/standard deviation
z-score rule with **strict** comparisons — buy if `zScore < -threshold`,
sell if `zScore > threshold` (the claim's non-strict `≤`/`≥` fail at
equality) — and a signal submits a market trade of `tradeAmount` while
no signal leaves the state untouched. -/
theorem meanReversion_evaluator (sqrtFn : ℚ → ℚ) (s : AgentState) (st : Strategy)
    (lb : ℕ) (t : ℚ) (amt : String) (old : List ℚ) (now : ℚ) (tid ts : String)
    (m : MarketSnapshot)
    (hst : st.params = .meanReversion lb t amt old)
    (hacc : s.account = true) (hmd : getMarketData s st.productId = some m)
    (hsq : ∀ v, 0 ≤ v → sqrtFn v = 0 → v = 0)
    (hlen : old.length ≤ lb) (hlb : 0 < lb) :
    (mrNewHistory lb old m.price =
      if old.length = lb then (old ++ [m.price]).tail else old ++ [m.price]) ∧
    (mrNewHistory lb old m.price).length ≤ lb ∧
    (meanReversionSignal sqrtFn lb t (mrNewHistory lb old m.price) m.price =
      meanReversionSignalSpec sqrtFn lb t (mrNewHistory lb old m.price) m.price) ∧
    (∀ side, meanReversionSignal sqrtFn lb t (mrNewHistory lb old m.price) m.price = some side →
      runStrategy sqrtFn s st now tid ts =
        .ok { st with params := .meanReversion lb t amt (mrNewHistory lb old m.price) }
          { s with orderHistory := s.orderHistory ++ [mkTradeRecord { productId := st.productId, orderType := .market, side := side, amount := amt } tid ts m.price] }
          [.tradeExecuted (mkTradeRecord { productId := st.productId, orderType := .market, side := side, amount := amt } tid ts m.price)]) ∧
    (meanReversionSignal sqrtFn lb t (mrNewHistory lb old m.price) m.price = none →
      runStrategy sqrtFn s st now tid ts =
        .ok { st with params := .meanReversion lb t amt (mrNewHistory lb old m.price) } s []) := by
  refine ⟨mrNewHistory_eq lb old m.price hlen, mrNewHistory_length_le lb old m.price hlen,
    meanReversionSignal_eq_spec sqrtFn lb t _ m.price hsq (mrNewHistory_mem lb old m.price hlb),
    fun side hsig => ?_, fun hsig => ?_⟩
  · simp [runStrategy, hst, executeMeanReversionStrategy, getCurrentPrice, hmd, hsig,
      executeTrade, hacc]
  · simp [runStrategy, hst, executeMeanReversionStrategy, getCurrentPrice, hmd, hsig]

/-- C6 witness: the lookback-2 fixture holding `[100]` pushes the
price 102 to the full buffer `[100, 102]` (z-score exactly 1 at
threshold 1) and produces no trade. -/
theorem meanReversion_evaluator_witness :
    runStrategy ratSqrt state102 mrStrat 0 "t1" "ts" =
      .ok { mrStrat with params := .meanReversion 2 1 "1" [100, 102] } state102 [] := by
  have hsq : ∀ v : ℚ, 0 ≤ v → ratSqrt v = 0 → v = 0 := by
    intro v hv h
    rw [ratSqrt] at h
    rcases div_eq_zero_iff.mp h with h' | h'
    · have hnum : (v.num.toNat.sqrt : ℚ) = 0 := h'
      have : v.num.toNat.sqrt = 0 := by exact_mod_cast hnum
      have hz : v.num.toNat = 0 := Nat.sqrt_eq_zero.mp this
      have : v.num = 0 := by
        have hnn : 0 ≤ v.num := Rat.num_nonneg.mpr hv
        omega
      exact Rat.num_eq_zero.mp this
    · have : v.den.sqrt = 0 := by exact_mod_cast h'
      have : v.den = 0 := Nat.sqrt_eq_zero.mp this
      exact absurd this v.den_nz
  have h := (meanReversion_evaluator ratSqrt state102 mrStrat 2 1 "1" [100] 0 "t1" "ts" btc102
    rfl rfl (by simp [getMarketData, state102, btc102, List.find?, mrStrat]) hsq
    (by simp) (by norm_num)).2.2.2.2
  have hsig : meanReversionSignal ratSqrt 2 1 (mrNewHistory 2 [100] btc102.price)
      btc102.price = none := by
    norm_num [mrNewHistory, meanReversionSignal, ratSqrt, jsDiv, jsLtQ, jsGtQ, btc102]
  have := h hsig
  have hnew : mrNewHistory 2 [100] btc102.price = [100, 102] := by
    norm_num [mrNewHistory, btc102]
  rwa [hnew] at this

/-- C6 counterexample: at z-score exactly equal to the threshold
(buffer `[100, 102]`, mean 101, standard deviation 1, current 102,
threshold 1) the claim's `zScore ≥ threshold` demands a sell, but the
evaluator's strict comparison produces no signal and no trade. -/
theorem meanReversion_threshold_counterexample :
    jsDiv ((102 : ℚ) - (100 + 102) / 2)
        (ratSqrt ((((100 : ℚ) - (100 + 102) / 2) ^ 2 + ((102 : ℚ) - (100 + 102) / 2) ^ 2) / 2)) =
      .num 1 ∧
    meanReversionSignal ratSqrt 2 1 [100, 102] 102 = none ∧
    stratResultEvents (runStrategy ratSqrt state102 mrStrat 0 "t1" "ts") = [] := by
  refine ⟨?_, ?_, ?_⟩
  · norm_num [ratSqrt, jsDiv]
  · norm_num [meanReversionSignal, ratSqrt, jsDiv, jsLtQ, jsGtQ]
  · norm_num [runStrategy, mrStrat, executeMeanReversionStrategy, getCurrentPrice,
      getMarketData, state102, btc102, List.find?, mrNewHistory, meanReversionSignal,
      ratSqrt, jsDiv, jsLtQ, jsGtQ, stratResultEvents]

/-! ### C7: zero standard deviation is defined behavior -/

/-- C7 (confirmed): a mean-reversion evaluation whose post-push
buffer has zero population standard deviation submits no trade and does
not fault: the source's `(current - mean) / stdDev` is JavaScript's
`0 / 0 = NaN` (the current price equals the mean of a zero-variance
buffer), `NaN` fails both threshold comparisons, and JavaScript division
never raises — embedded by `jsDiv`'s total `nan` case. -/
theorem meanReversion_zero_stddev (sqrtFn : ℚ → ℚ) (s : AgentState) (st : Strategy)
    (lb : ℕ) (t : ℚ) (amt : String) (old : List ℚ) (now : ℚ) (tid ts : String)
    (m : MarketSnapshot)
    (hst : st.params = .meanReversion lb t amt old)
    (hmd : getMarketData s st.productId = some m)
    (hs0 : sqrtFn 0 = 0) (hlb : 0 < lb)
    (hvar : populationVariance (mrNewHistory lb old m.price) = 0) :
    runStrategy sqrtFn s st now tid ts =
      .ok { st with params := .meanReversion lb t amt (mrNewHistory lb old m.price) } s [] := by
  have hsig := meanReversionSignal_none_of_variance_zero sqrtFn lb t
    (mrNewHistory lb old m.price) m.price hs0 (mrNewHistory_mem lb old m.price hlb) hvar
  simp [runStrategy, hst, executeMeanReversionStrategy, getCurrentPrice, hmd, hsig]

/-- C7 witness: the constant buffer `[100, 100]` (variance 0) at
threshold 1 produces no trade and leaves the state unchanged. -/
theorem meanReversion_zero_stddev_witness :
    runStrategy ratSqrt state100 mrStrat 0 "t1" "ts" =
      .ok { mrStrat with params := .meanReversion 2 1 "1" [100, 100] } state100 [] := by
  have h := meanReversion_zero_stddev ratSqrt state100 mrStrat 2 1 "1" [100] 0 "t1" "ts"
    btc100 rfl (by simp [getMarketData, state100, btc100, List.find?, mrStrat])
    (by norm_num [ratSqrt]) (by norm_num)
    (by norm_num [mrNewHistory, btc100, populationVariance, populationMean])
  have hnew : mrNewHistory 2 [100] btc100.price = [100, 100] := by
    norm_num [mrNewHistory, btc100]
  rwa [hnew] at h

/-! ### C3: the alert scan -/

/-- C3 (amended): when no callback throws, the per-cycle alert scan
maps each alert independently, in insertion order: an active alert whose
instrument has a snapshot triggers exactly when `(condition = ABOVE ∧
price ≥ target) ∨ (condition = BELOW ∧ price ≤ target)`; alerts with no
snapshot are skipped without error; every triggering alert in the pass
fires: an alert-triggered event carrying `{alertId, instrument,
currentPrice, targetPrice}` is emitted, the optional callback is invoked
with the current price, and the alert ends the scan inactive.  (The
source's per-alert order is: emit the event, invoke the callback, *then*
mark inactive — not inactive-first as claimed; the difference is
observable exactly when the callback throws, per the counterexample.) -/
theorem checkPriceAlerts_scan (throws : String → Bool) (md : List MarketSnapshot)
    (alerts : List PriceAlert) (hnothrow : ∀ a ∈ alerts, throws a.id = false) :
    checkPriceAlertsGo throws md alerts =
      (alerts.map (fun a => if alertTriggers md a then { a with active := false } else a),
       (alerts.filter (fun a => alertTriggers md a)).map
         (fun a => Event.priceAlert a.id a.productId (alertSnapshotPrice md a) a.targetPrice),
       (alerts.filter (fun a => alertTriggers md a && a.hasCallback)).map
         (fun a => (a.id, alertSnapshotPrice md a)),
       true) := by
  induction alerts with
  | nil => simp [checkPriceAlertsGo]
  | cons a rest ih =>
    have ha : throws a.id = false := hnothrow a (List.mem_cons_self a rest)
    have hrest := ih (fun b hb => hnothrow b (List.mem_cons_of_mem a hb))
    by_cases hact : a.active = false
    · have htrig : alertTriggers md a = false := by simp [alertTriggers, hact]
      simp [checkPriceAlertsGo, hact, hrest, htrig]
    · have hact' : a.active = true := by revert hact; cases a.active <;> simp
      cases hfind : List.find? (fun m => m.productId == a.productId) md with
      | none =>
        have htrig : alertTriggers md a = false := by simp [alertTriggers, hfind]
        simp [checkPriceAlertsGo, hact', hfind, hrest, htrig]
      | some m =>
        by_cases htrig : alertTriggered a m.price = true
        · have htr : alertTriggers md a = true := by
            simp [alertTriggers, hact', hfind, htrig]
          have hprice : alertSnapshotPrice md a = m.price := by
            simp [alertSnapshotPrice, hfind]
          simp [checkPriceAlertsGo, hact', hfind, htrig, ha, hrest, htr, hprice]
          by_cases hcb : a.hasCallback = true <;>
            simp [List.filter_cons, hcb, htr, hprice]
        · have htrig' : alertTriggered a m.price = false := by
            revert htrig; cases alertTriggered a m.price <;> simp
          have htr : alertTriggers md a = false := by
            simp [alertTriggers, hfind, htrig']
          simp [checkPriceAlertsGo, hact', hfind, htrig', hrest, htr]

/-- C3 witness: both BTC alerts trigger in one pass at price 45500;
each is deactivated, each emits its event in insertion order, and the
callback-bearing one has its callback invoked with 45500. -/
theorem checkPriceAlerts_scan_witness :
    checkPriceAlertsGo (fun _ => false) [btc45500] [cbAlert, plainAlert] =
      ([{ cbAlert with active := false }, { plainAlert with active := false }],
       [.priceAlert "a1" "BTC-USD" 45500 45000, .priceAlert "a2" "BTC-USD" 45500 46000],
       [("a1", 45500)], true) := by
  have h := checkPriceAlerts_scan (fun _ => false) [btc45500] [cbAlert, plainAlert]
    (by intro a ha; rfl)
  rw [h]
  norm_num [alertTriggers, alertTriggered, alertSnapshotPrice, cbAlert, plainAlert,
    btc45500, List.find?, List.filter]

/-- C3 counterexample: a triggering alert whose callback throws has
its event emitted and its callback invoked, yet remains **active** after
the scan — the source deactivates last, not first as the claim states;
under the claim's ordering the alert would be inactive here. -/
theorem checkPriceAlerts_order_counterexample :
    checkPriceAlertsGo (fun _ => true) [btc45500] [cbAlert] =
      ([cbAlert], [.priceAlert "a1" "BTC-USD" 45500 45000], [("a1", 45500)], false) ∧
    cbAlert.active = true := by
  constructor
  · norm_num [checkPriceAlertsGo, cbAlert, btc45500, List.find?, alertTriggered]
  · rfl

/-! ### C4: failure containment inside a cycle -/

/-- C4 (amended): strategy-evaluator failures are contained per item
— the strategy loop never short-circuits (one outcome per strategy,
whatever fails), a failing strategy contributes its recorded error while
every remaining strategy is still evaluated, and a cycle whose alert
scan completes finishes normally regardless of strategy failures.
Alert-callback failures are **not** contained (see the counterexample):
a throwing callback aborts the rest of the alert scan and skips the
strategy phase of that cycle. -/
theorem strategy_failures_contained (sqrtFn : ℚ → ℚ) (now : ℚ) (tid ts : String) :
    (∀ (l : List Strategy) (s : AgentState),
      ((executeActiveStrategies sqrtFn now tid ts s l).1).length = l.length) ∧
    (∀ (s : AgentState) (st : Strategy) (rest : List Strategy) (e : TradeError)
        (st' : Strategy) (s' : AgentState),
      st.enabled = true →
      runStrategy sqrtFn s st now tid ts = .err e st' s' →
      executeActiveStrategies sqrtFn now tid ts s (st :: rest) =
        (st' :: (executeActiveStrategies sqrtFn now tid ts s' rest).1,
         (executeActiveStrategies sqrtFn now tid ts s' rest).2.1,
         (executeActiveStrategies sqrtFn now tid ts s' rest).2.2.1,
         (st.id, e) :: (executeActiveStrategies sqrtFn now tid ts s' rest).2.2.2)) ∧
    (∀ (s : AgentState) (md : List MarketSnapshot) (throws : String → Bool),
      (checkPriceAlertsGo throws md s.priceAlerts).2.2.2 = true →
      (monitoringCycle sqrtFn s md throws now tid ts).2.2 = true) := by
  refine ⟨?_, ?_, ?_⟩
  · intro l
    induction l with
    | nil => intro s; simp [executeActiveStrategies]
    | cons st rest ih =>
      intro s
      by_cases hen : st.enabled = false
      · simp [executeActiveStrategies, hen, ih]
      · cases hrun : runStrategy sqrtFn s st now tid ts with
        | ok st' s' evs => simp [executeActiveStrategies, hen, hrun, ih]
        | err e st' s' => simp [executeActiveStrategies, hen, hrun, ih]
  · intro s st rest e st' s' hen hrun
    have hen' : ¬ st.enabled = false := by simp [hen]
    simp [executeActiveStrategies, hen', hrun]
  · intro s md throws h
    simp only [monitoringCycle, checkPriceAlerts]
    simp [h]

/-- C4 witness: a momentum strategy over an instrument with no
snapshot throws; the error is caught and recorded and the loop produces
its one outcome, continuing past the failure. -/
theorem strategy_failures_contained_witness :
    executeActiveStrategies ratSqrt 0 "t1" "ts" noDataState [momWStrat] =
      ([momWStrat], noDataState, [], [("m2", .noMarketData "BTC-USD")]) := by
  have herr : runStrategy ratSqrt noDataState momWStrat 0 "t1" "ts" =
      .err (.noMarketData "BTC-USD") momWStrat noDataState := by
    norm_num [runStrategy, momWStrat, executeMomentumStrategy, getCurrentPrice,
      getMarketData, noDataState, List.find?]
  have h := (strategy_failures_contained ratSqrt 0 "t1" "ts").2.1 noDataState momWStrat []
    (.noMarketData "BTC-USD") momWStrat noDataState rfl herr
  simpa [executeActiveStrategies, momWStrat] using h

/-- C4 counterexample: the first alert's callback throws; the second
alert — which would trigger at 45500 — is never evaluated (it emits no
event and is left untouched), and the cycle's strategy phase is skipped:
in-cycle alert-callback failures are not contained per item. -/
theorem alert_callback_abort_counterexample :
    checkPriceAlertsGo (fun _ => true) [btc45500] [cbAlert, plainAlert] =
      ([cbAlert, plainAlert], [.priceAlert "a1" "BTC-USD" 45500 45000],
       [("a1", 45500)], false) ∧
    plainAlert.active = true ∧
    (monitoringCycle ratSqrt twoAlertState [btc45500] (fun _ => true) 0 "t1" "ts").2.2 =
      false := by
  refine ⟨?_, rfl, ?_⟩
  · norm_num [checkPriceAlertsGo, cbAlert, plainAlert, btc45500, List.find?,
      alertTriggered]
  · norm_num [monitoringCycle, checkPriceAlerts, checkPriceAlertsGo, twoAlertState,
      cbAlert, plainAlert, btc45500, List.find?, alertTriggered]

/-! ### C1: supporting frame lemmas for the alert one-shot invariant -/

/-- A successful trade changes neither the alert registry nor the
strategy registry, and emits exactly the trade-executed event. -/
theorem executeTrade_ok_parts (s : AgentState) (config : TradeConfig) (tid ts : String)
    (td : TradeRecord) (s' : AgentState) (evs : List Event)
    (h : executeTrade s config tid ts = .ok (td, s', evs)) :
    s'.priceAlerts = s.priceAlerts ∧ s'.strategies = s.strategies ∧
    evs = [.tradeExecuted td] := by
  unfold executeTrade at h
  by_cases hacc : s.account = false
  · simp [hacc] at h
  · rw [if_neg hacc] at h
    cases hp : getCurrentPrice s config.productId with
    | error e => rw [hp] at h; simp at h
    | ok price =>
      rw [hp] at h
      simp only [Except.ok.injEq, Prod.mk.injEq] at h
      obtain ⟨rfl, rfl, rfl⟩ := h
      exact ⟨rfl, rfl, rfl⟩

/-- Evaluating one strategy never touches the alert registry and never
emits an alert-triggered event, whether it completes or throws. -/
theorem runStrategy_alert_frame (sqrtFn : ℚ → ℚ) (s : AgentState) (st : Strategy)
    (now : ℚ) (tid ts : String) :
    (∀ st' s' evs, runStrategy sqrtFn s st now tid ts = .ok st' s' evs →
      s'.priceAlerts = s.priceAlerts ∧
      ∀ aid pid p tp, Event.priceAlert aid pid p tp ∉ evs) ∧
    (∀ e st' s', runStrategy sqrtFn s st now tid ts = .err e st' s' →
      s'.priceAlerts = s.priceAlerts) := by
  cases hp : st.params with
  | dca amt interval lastExec =>
    simp only [runStrategy, hp]
    unfold executeDCAStrategy
    constructor
    · intro st' s' evs h
      split at h
      · simp only [StratResult.ok.injEq] at h
        obtain ⟨-, rfl, rfl⟩ := h
        exact ⟨rfl, by simp⟩
      · cases hE : executeTrade s
            { productId := st.productId, orderType := .market, side := .buy,
              amount := amt } tid ts with
        | error e => rw [hE] at h; simp at h
        | ok r =>
          obtain ⟨td, s'', evs''⟩ := r
          rw [hE] at h
          simp only [StratResult.ok.injEq] at h
          obtain ⟨-, rfl, rfl⟩ := h
          have hparts := executeTrade_ok_parts _ _ _ _ _ _ _ hE
          exact ⟨hparts.1, by simp [hparts.2.2]⟩
    · intro e st' s' h
      split at h
      · simp at h
      · cases hE : executeTrade s
            { productId := st.productId, orderType := .market, side := .buy,
              amount := amt } tid ts with
        | error e' =>
          rw [hE] at h
          simp only [StratResult.err.injEq] at h
          obtain ⟨-, -, rfl⟩ := h
          rfl
        | ok r =>
          obtain ⟨td, s'', evs''⟩ := r
          rw [hE] at h
          simp at h
  | grid lo hi levels apl al =>
    simp only [runStrategy, hp]
    unfold executeGridStrategy
    constructor
    · intro st' s' evs h
      cases hc : getCurrentPrice s st.productId with
      | error e => rw [hc] at h; simp at h
      | ok price =>
        rw [hc] at h
        simp only [StratResult.ok.injEq] at h
        obtain ⟨-, rfl, rfl⟩ := h
        exact ⟨rfl, by simp⟩
    · intro e st' s' h
      cases hc : getCurrentPrice s st.productId with
      | error e' =>
        rw [hc] at h
        simp only [StratResult.err.injEq] at h
        obtain ⟨-, -, rfl⟩ := h
        rfl
      | ok price => rw [hc] at h; simp at h
  | momentum th amt lastPrice =>
    simp only [runStrategy, hp]
    unfold executeMomentumStrategy
    constructor
    · intro st' s' evs h
      cases hc : getCurrentPrice s st.productId with
      | error e => rw [hc] at h; simp at h
      | ok price =>
        rw [hc] at h
        simp only at h
        split at h
        · split at h
          · split at h
            · cases hE : executeTrade s
                  { productId := st.productId, orderType := .market, side := .buy,
                    amount := amt } tid ts with
              | error e => rw [hE] at h; simp at h
              | ok r =>
                obtain ⟨td, s'', evs''⟩ := r
                rw [hE] at h
                simp only [StratResult.ok.injEq] at h
                obtain ⟨-, rfl, rfl⟩ := h
                have hparts := executeTrade_ok_parts _ _ _ _ _ _ _ hE
                exact ⟨hparts.1, by simp [hparts.2.2]⟩
            · cases hE : executeTrade s
                  { productId := st.productId, orderType := .market, side := .sell,
                    amount := amt } tid ts with
              | error e => rw [hE] at h; simp at h
              | ok r =>
                obtain ⟨td, s'', evs''⟩ := r
                rw [hE] at h
                simp only [StratResult.ok.injEq] at h
                obtain ⟨-, rfl, rfl⟩ := h
                have hparts := executeTrade_ok_parts _ _ _ _ _ _ _ hE
                exact ⟨hparts.1, by simp [hparts.2.2]⟩
          · simp only [StratResult.ok.injEq] at h
            obtain ⟨-, rfl, rfl⟩ := h
            exact ⟨rfl, by simp⟩
        · simp only [StratResult.ok.injEq] at h
          obtain ⟨-, rfl, rfl⟩ := h
          exact ⟨rfl, by simp⟩
    · intro e st' s' h
      cases hc : getCurrentPrice s st.productId with
      | error e' =>
        rw [hc] at h
        simp only [StratResult.err.injEq] at h
        obtain ⟨-, -, rfl⟩ := h
        rfl
      | ok price =>
        rw [hc] at h
        simp only at h
        split at h
        · split at h
          · split at h
            · cases hE : executeTrade s
                  { productId := st.productId, orderType := .market, side := .buy,
                    amount := amt } tid ts with
              | error e' =>
                rw [hE] at h
                simp only [StratResult.err.injEq] at h
                obtain ⟨-, -, rfl⟩ := h
                rfl
              | ok r =>
                obtain ⟨td, s'', evs''⟩ := r
                rw [hE] at h
                simp at h
            · cases hE : executeTrade s
                  { productId := st.productId, orderType := .market, side := .sell,
                    amount := amt } tid ts with
              | error e' =>
                rw [hE] at h
                simp only [StratResult.err.injEq] at h
                obtain ⟨-, -, rfl⟩ := h
                rfl
              | ok r =>
                obtain ⟨td, s'', evs''⟩ := r
                rw [hE] at h
                simp at h
          · simp at h
        · simp at h
  | meanReversion lookback threshold amt history =>
    simp only [runStrategy, hp]
    unfold executeMeanReversionStrategy
    constructor
    · intro st' s' evs h
      cases hc : getCurrentPrice s st.productId with
      | error e => rw [hc] at h; simp at h
      | ok price =>
        rw [hc] at h
        simp only at h
        split at h
        · rename_i side hsig
          cases hE : executeTrade s
              { productId := st.productId, orderType := .market, side := side,
                amount := amt } tid ts with
          | error e => rw [hE] at h; simp at h
          | ok r =>
            obtain ⟨td, s'', evs''⟩ := r
            rw [hE] at h
            simp only [StratResult.ok.injEq] at h
            obtain ⟨-, rfl, rfl⟩ := h
            have hparts := executeTrade_ok_parts _ _ _ _ _ _ _ hE
            exact ⟨hparts.1, by simp [hparts.2.2]⟩
        · simp only [StratResult.ok.injEq] at h
          obtain ⟨-, rfl, rfl⟩ := h
          exact ⟨rfl, by simp⟩
    · intro e st' s' h
      cases hc : getCurrentPrice s st.productId with
      | error e' =>
        rw [hc] at h
        simp only [StratResult.err.injEq] at h
        obtain ⟨-, -, rfl⟩ := h
        rfl
      | ok price =>
        rw [hc] at h
        simp only at h
        split at h
        · rename_i side hsig
          cases hE : executeTrade s
              { productId := st.productId, orderType := .market, side := side,
                amount := amt } tid ts with
          | error e' =>
            rw [hE] at h
            simp only [StratResult.err.injEq] at h
            obtain ⟨-, -, rfl⟩ := h
            rfl
          | ok r =>
            obtain ⟨td, s'', evs''⟩ := r
            rw [hE] at h
            simp at h
        · simp at h

/-- The strategy phase never touches the alert registry and never emits
an alert-triggered event. -/
theorem executeActiveStrategies_alert_frame (sqrtFn : ℚ → ℚ) (now : ℚ) (tid ts : String) :
    ∀ (l : List Strategy) (s : AgentState),
      ((executeActiveStrategies sqrtFn now tid ts s l).2.1).priceAlerts = s.priceAlerts ∧
      (∀ aid pid p tp,
        Event.priceAlert aid pid p tp ∉ (executeActiveStrategies sqrtFn now tid ts s l).2.2.1) := by
  intro l
  induction l with
  | nil => intro s; simp [executeActiveStrategies]
  | cons st rest ih =>
    intro s
    by_cases hen : st.enabled = false
    · rcases hrec : executeActiveStrategies sqrtFn now tid ts s rest with ⟨sts, s'', evs', errs⟩
      have hih := ih s
      rw [hrec] at hih
      simp only at hih
      have hgo : executeActiveStrategies sqrtFn now tid ts s (st :: rest) =
          (st :: sts, s'', evs', errs) := by
        simp [executeActiveStrategies, hen, hrec]
      rw [hgo]
      exact hih
    · cases hrun : runStrategy sqrtFn s st now tid ts with
      | ok st' s' evs =>
        have hframe := (runStrategy_alert_frame sqrtFn s st now tid ts).1 st' s' evs hrun
        rcases hrec : executeActiveStrategies sqrtFn now tid ts s' rest with ⟨sts, s'', evs', errs⟩
        have hih := ih s'
        rw [hrec] at hih
        simp only at hih
        have hgo : executeActiveStrategies sqrtFn now tid ts s (st :: rest) =
            (st' :: sts, s'', evs ++ evs', errs) := by
          simp [executeActiveStrategies, hen, hrun, hrec]
        rw [hgo]
        constructor
        · simp only
          rw [hih.1, hframe.1]
        · intro aid pid p tp
          simp only [List.mem_append, not_or]
          exact ⟨hframe.2 aid pid p tp, hih.2 aid pid p tp⟩
      | err e st' s' =>
        have hframe := (runStrategy_alert_frame sqrtFn s st now tid ts).2 e st' s' hrun
        rcases hrec : executeActiveStrategies sqrtFn now tid ts s' rest with ⟨sts, s'', evs', errs⟩
        have hih := ih s'
        rw [hrec] at hih
        simp only at hih
        have hgo : executeActiveStrategies sqrtFn now tid ts s (st :: rest) =
            (st' :: sts, s'', evs', (st.id, e) :: errs) := by
          simp [executeActiveStrategies, hen, hrun, hrec]
        rw [hgo]
        constructor
        · simp only
          rw [hih.1, hframe]
        · intro aid pid p tp
          exact hih.2 aid pid p tp

/-- The alert scan never reactivates an alert that is inactive under a
given id, and emits no event under that id. -/
theorem checkPriceAlertsGo_preserves_inactive (throws : String → Bool)
    (md : List MarketSnapshot) (aid : String) :
    ∀ (l : List PriceAlert), (∀ a ∈ l, a.id = aid → a.active = false) →
      (∀ a' ∈ (checkPriceAlertsGo throws md l).1, a'.id = aid → a'.active = false) ∧
      (∀ pid p tp, Event.priceAlert aid pid p tp ∉ (checkPriceAlertsGo throws md l).2.1) := by
  intro l
  induction l with
  | nil => intro _; simp [checkPriceAlertsGo]
  | cons a rest ih =>
    intro h
    have hh := ih (fun b hb hid => h b (List.mem_cons_of_mem a hb) hid)
    rcases hrec : checkPriceAlertsGo throws md rest with ⟨as, evs, calls, ok⟩
    rw [hrec] at hh
    simp only at hh
    by_cases hact : a.active = false
    · have hgo : checkPriceAlertsGo throws md (a :: rest) = (a :: as, evs, calls, ok) := by
        simp [checkPriceAlertsGo, hact, hrec]
      rw [hgo]
      constructor
      · intro a' ha' hid
        rcases List.mem_cons.mp ha' with rfl | ha'
        · exact hact
        · exact hh.1 a' ha' hid
      · exact hh.2
    · have hact' : a.active = true := by revert hact; cases a.active <;> simp
      have hne : a.id ≠ aid := by
        intro hid
        exact hact (h a (List.mem_cons_self a rest) hid)
      cases hfind : List.find? (fun m => m.productId == a.productId) md with
      | none =>
        have hgo : checkPriceAlertsGo throws md (a :: rest) = (a :: as, evs, calls, ok) := by
          simp [checkPriceAlertsGo, hact', hfind, hrec]
        rw [hgo]
        constructor
        · intro a' ha' hid
          rcases List.mem_cons.mp ha' with rfl | ha'
          · exact absurd hid hne
          · exact hh.1 a' ha' hid
        · exact hh.2
      | some m =>
        by_cases htrig : alertTriggered a m.price = true
        · by_cases hcb : (a.hasCallback && throws a.id) = true
          · have hgo : checkPriceAlertsGo throws md (a :: rest) =
                (a :: rest, [.priceAlert a.id a.productId m.price a.targetPrice],
                 [(a.id, m.price)], false) := by
              simp [checkPriceAlertsGo, hact', hfind, htrig, hcb]
            rw [hgo]
            constructor
            · intro a' ha' hid
              rcases List.mem_cons.mp ha' with rfl | ha'
              · exact absurd hid hne
              · exact h a' (List.mem_cons_of_mem a ha') hid
            · intro pid p tp hmem
              rcases List.mem_cons.mp hmem with heq | hmem'
              · injection heq with h1 h2 h3 h4
                exact hne h1.symm
              · simp at hmem'
          · have hgo : checkPriceAlertsGo throws md (a :: rest) =
                ({ a with active := false } :: as,
                 Event.priceAlert a.id a.productId m.price a.targetPrice :: evs,
                 (if a.hasCallback then [(a.id, m.price)] else []) ++ calls, ok) := by
              simp [checkPriceAlertsGo, hact', hfind, htrig, hcb, hrec]
            rw [hgo]
            constructor
            · intro a' ha' hid
              rcases List.mem_cons.mp ha' with rfl | ha'
              · rfl
              · exact hh.1 a' ha' hid
            · intro pid p tp hmem
              rcases List.mem_cons.mp hmem with heq | hmem'
              · injection heq with h1 h2 h3 h4
                exact hne h1.symm
              · exact hh.2 pid p tp hmem'
        · have htrig' : alertTriggered a m.price = false := by
            revert htrig; cases alertTriggered a m.price <;> simp
          have hgo : checkPriceAlertsGo throws md (a :: rest) = (a :: as, evs, calls, ok) := by
            simp [checkPriceAlertsGo, hact', hfind, htrig', hrec]
          rw [hgo]
          constructor
          · intro a' ha' hid
            rcases List.mem_cons.mp ha' with rfl | ha'
            · exact absurd hid hne
            · exact hh.1 a' ha' hid
          · exact hh.2

/-- A monitoring cycle preserves "every alert under this id is inactive"
and emits no alert-triggered event under that id. -/
theorem monitoringCycle_inactive (sqrtFn : ℚ → ℚ) (s : AgentState)
    (md : List MarketSnapshot) (throws : String → Bool) (now : ℚ) (tid ts : String)
    (aid : String) (h : alertInactive s aid) :
    alertInactive (monitoringCycle sqrtFn s md throws now tid ts).1 aid ∧
    (∀ pid p tp,
      Event.priceAlert aid pid p tp ∉ (monitoringCycle sqrtFn s md throws now tid ts).2.1) := by
  have hgo := checkPriceAlertsGo_preserves_inactive throws md aid s.priceAlerts h
  have heas := executeActiveStrategies_alert_frame sqrtFn now tid ts
  rcases hg : checkPriceAlertsGo throws md s.priceAlerts with ⟨alerts', evs1, calls, ok⟩
  rw [hg] at hgo
  simp only at hgo
  simp only [monitoringCycle, checkPriceAlerts, runAllStrategies, alertInactive]
  rw [hg]
  cases ok with
  | true =>
    rcases he : executeActiveStrategies sqrtFn now tid ts
        { s with marketData := md, priceAlerts := alerts' } s.strategies with
      ⟨sts, s3, evs2, errs⟩
    dsimp only
    simp only [if_true]
    have hframe := heas s.strategies { s with marketData := md, priceAlerts := alerts' }
    rw [he] at hframe
    simp only at hframe
    constructor
    · intro a ha hid
      rw [hframe.1] at ha
      exact hgo.1 a ha hid
    · intro pid p tp
      simp only [List.mem_append, not_or]
      exact ⟨hgo.2 pid p tp, hframe.2 aid pid p tp⟩
  | false =>
    dsimp only
    exact ⟨fun a ha hid => hgo.1 a ha hid, fun pid p tp => hgo.2 pid p tp⟩

/-- Membership after a `Map.set`-style update: the new entry or an old
one. -/
theorem mem_mapSetBy {α : Type} (key : α → String) (l : List α) (x : α) (a : α)
    (ha : a ∈ mapSetBy key l x) : a = x ∨ a ∈ l := by
  unfold mapSetBy at ha
  split at ha
  · obtain ⟨b, hb, hba⟩ := List.mem_map.mp ha
    by_cases hbk : (key b == key x) = true
    · rw [if_pos hbk] at hba
      left
      exact hba.symm
    · rw [if_neg hbk] at hba
      right
      exact hba ▸ hb
  · rcases List.mem_append.mp ha with h1 | h1
    · right
      exact h1
    · left
      simpa using h1

/-- Every public operation and every cycle preserves "all alerts under
this id are inactive" (assuming the operation does not create a fresh
alert under that id) and emits no alert event under that id. -/
theorem applyOp_inactive (sqrtFn : ℚ → ℚ) (s : AgentState) (aid : String) (op : Op)
    (hop : opCreatesAlert op aid = false) (h : alertInactive s aid) :
    alertInactive (applyOp sqrtFn s op).1 aid ∧
    (∀ pid p tp, Event.priceAlert aid pid p tp ∉ (applyOp sqrtFn s op).2) := by
  cases op with
  | initAgent => exact ⟨fun a ha hid => h a ha hid, by simp [applyOp]⟩
  | createAlert id pid' target cond cb =>
    have hne : id ≠ aid := by simpa [opCreatesAlert] using hop
    constructor
    · intro a ha hid
      simp only [applyOp] at ha
      rcases mem_mapSetBy _ _ _ _ ha with rfl | ha'
      · exact absurd hid hne
      · exact h a ha' hid
    · intro pid p tp
      simp [applyOp]
  | removeAlert id =>
    constructor
    · intro a ha hid
      simp only [applyOp] at ha
      exact h a (List.mem_of_mem_filter ha) hid
    · intro pid p tp
      simp [applyOp]
  | createStrategyOp st => exact ⟨fun a ha hid => h a ha hid, by simp [applyOp]⟩
  | enableStrategyOp id => exact ⟨fun a ha hid => h a ha hid, by simp [applyOp]⟩
  | disableStrategyOp id => exact ⟨fun a ha hid => h a ha hid, by simp [applyOp]⟩
  | executeTradeOp config tid ts =>
    cases hE : executeTrade s config tid ts with
    | error e =>
      have happ : applyOp sqrtFn s (.executeTradeOp config tid ts) = (s, []) := by
        simp [applyOp, hE]
      rw [happ]
      exact ⟨h, by simp⟩
    | ok r =>
      obtain ⟨td, s', evs⟩ := r
      have hparts := executeTrade_ok_parts _ _ _ _ _ _ _ hE
      have happ : applyOp sqrtFn s (.executeTradeOp config tid ts) = (s', evs) := by
        simp [applyOp, hE]
      rw [happ]
      constructor
      · intro a ha hid
        rw [hparts.1] at ha
        exact h a ha hid
      · intro pid p tp
        simp [hparts.2.2]
  | cycleOp md throws now tid ts =>
    have hcyc := monitoringCycle_inactive sqrtFn s md throws now tid ts aid h
    rcases hc : monitoringCycle sqrtFn s md throws now tid ts with ⟨s', evs, okc⟩
    rw [hc] at hcyc
    simp only at hcyc
    have happ : applyOp sqrtFn s (.cycleOp md throws now tid ts) = (s', evs) := by
      simp [applyOp, hc]
    rw [happ]
    exact hcyc

/-! ### C1: the alert one-shot invariant -/

/-- C1 (amended): once an alert's `active` flag is false, it never
becomes true again under any sequence of public operations and
monitoring cycles (with any market data, clock values, and callback
behaviour, provided newly created alerts use fresh ids), and such an
alert is skipped by every subsequent scan: no later alert-triggered
event is ever emitted under its id.  The original claim's stronger gloss
— that an alert which has *triggered* (emitted its event) never
re-emits — fails when the alert's callback throws, because the source
deactivates the alert only after the callback returns (see the
counterexample). -/
theorem alert_one_shot (sqrtFn : ℚ → ℚ) (aid : String) :
    ∀ (ops : List Op) (s : AgentState),
      (∀ op ∈ ops, opCreatesAlert op aid = false) →
      alertInactive s aid →
      alertInactive (applyOps sqrtFn s ops).1 aid ∧
      (∀ pid p tp, Event.priceAlert aid pid p tp ∉ (applyOps sqrtFn s ops).2) := by
  intro ops
  induction ops with
  | nil =>
    intro s _ hin
    exact ⟨hin, by simp [applyOps]⟩
  | cons op ops ih =>
    intro s hfresh hin
    have hop := hfresh op (List.mem_cons_self op ops)
    rcases hA : applyOp sqrtFn s op with ⟨s', evs⟩
    have hstep := applyOp_inactive sqrtFn s aid op hop hin
    rw [hA] at hstep
    simp only at hstep
    rcases hR : applyOps sqrtFn s' ops with ⟨s'', evs'⟩
    have hrest := ih s' (fun op' hop' => hfresh op' (List.mem_cons_of_mem op hop')) hstep.1
    rw [hR] at hrest
    simp only at hrest
    have happ : applyOps sqrtFn s (op :: ops) = (s'', evs ++ evs') := by
      simp [applyOps, hA, hR]
    rw [happ]
    constructor
    · exact hrest.1
    · intro pid p tp
      simp only [List.mem_append, not_or]
      exact ⟨hstep.2 pid p tp, hrest.2 pid p tp⟩

/-- C1 witness: an already-inactive alert stays inactive across a
monitoring cycle whose snapshot price satisfies its condition, and no
event is emitted under its id. -/
theorem alert_one_shot_witness :
    alertInactive (applyOps ratSqrt doneAlertState oneCycleOps).1 "a0" ∧
    Event.priceAlert "a0" "BTC-USD" 45500 44000 ∉
      (applyOps ratSqrt doneAlertState oneCycleOps).2 := by
  have h := alert_one_shot ratSqrt "a0" oneCycleOps doneAlertState
    (by
      intro op hop
      simp only [oneCycleOps, List.mem_singleton] at hop
      subst hop
      rfl)
    (by
      intro a ha hid
      simp only [doneAlertState, List.mem_singleton] at ha
      subst ha
      rfl)
  exact ⟨h.1, h.2 "BTC-USD" 45500 44000⟩

/-- C1 counterexample: an alert whose callback throws emits its
alert-triggered event in two consecutive cycles — it triggered (the
event fired) yet was left active, refuting "an alert that has triggered
… never re-emits an alert-triggered event". -/
theorem alert_retrigger_counterexample :
    (applyOps ratSqrt oneAlertState twoCycleOps).2 =
      [.priceAlert "a1" "BTC-USD" 45500 45000,
       .priceAlert "a1" "BTC-USD" 45500 45000] := by
  norm_num [applyOps, applyOp, twoCycleOps, monitoringCycle, checkPriceAlerts,
    checkPriceAlertsGo, oneAlertState, cbAlert, btc45500, List.find?, alertTriggered,
    runAllStrategies, executeActiveStrategies]

end TradingAgent
